import Mathlib

/-!
# A shallow embedding of the abaaso Promises/A+ engine

This file embeds the promise engine of the repository (the `promise`
object and the `Promise` constructor of `src/unnamed/part_000`) as an
executable state machine in Lean, and settles the frozen claims about it.

Modelling notes, fixed throughout:

* JavaScript values are the inductive `Value`; machine references to
  live `Promise` objects are indices into a heap (`St.heap`).
* The external collaborators that the engine consumes (`utility.defer`,
  `json.encode`, `string.isEmpty`, `array.each` / `array.remove`, the
  `label.error` message table) are not under `src/`; where their
  behaviour is load-bearing they are modelled from the spec and marked
  as such in their doc comments.
* User-supplied callbacks are defunctionalized (`UserFn`): constant
  return, throw, identity, and the two forwarding closures that the
  adoption branch of `then` creates.  Invocations of test callbacks are
  recorded in an event log so that "invoked exactly once with v" is a
  statement about the log.
* All engine operations thread an explicit state and return
  `St × Except Value α`; a `.error` result is a raised JS exception
  (state mutations made before the raise persist, as in JS).
* The mutual recursion (`settle` / `drainLoop` / `runCont` /
  `finallyPart` / `thenOp` / `vouch`) is indexed by fuel; every claim is
  settled at an explicitly sufficient fuel.
-/

namespace AbaasoPromise

/-- JavaScript runtime values as used by the promise engine.  `err` is an
`Error` instance carrying its message; `promiseRef` is a reference to a
`Promise` object in the heap; `obj` is a plain structured object. -/
inductive Value where
  | undef : Value
  | null : Value
  | bool (b : Bool) : Value
  | num (n : Int) : Value
  | str (s : String) : Value
  | err (msg : String) : Value
  | obj (fields : List (String × Value)) : Value
  | promiseRef (r : Nat) : Value
deriving Repr

/-- `promise.state.broken` in the source. -/
def stateBroken : String := "rejected"

/-- `promise.state.pending` in the source. -/
def statePending : String := "pending"

/-- `promise.state.resolved` in the source. -/
def stateResolved : String := "fulfilled"

/-- JS truthiness (`result || self.outcome` lowers to an `if truthy`). -/
def truthy : Value → Bool
  | .undef => false
  | .null => false
  | .bool b => b
  | .num n => n != 0
  | .str s => !s.isEmpty
  | .err _ => true
  | .obj _ => true
  | .promiseRef _ => true

/-- `x === undefined` of the source. -/
def isUndef : Value → Bool
  | .undef => true
  | _ => false

/-- `x instanceof Promise` of the source. -/
def isPromiseRef : Value → Bool
  | .promiseRef _ => true
  | _ => false

/-- `x instanceof Error` of the source. -/
def isErr : Value → Bool
  | .err _ => true
  | _ => false

/-- `typeof x === "object"` of the source (true for plain objects, for
`null` and for Promise/Error instances, as in JS). -/
def typeofObject : Value → Bool
  | .obj _ => true
  | .null => true
  | .promiseRef _ => true
  | .err _ => true
  | _ => false

/-- The heap reference carried by a Promise value (0 for non-Promise
values; only applied to Promise values). -/
def refOf : Value → Nat
  | .promiseRef r => r
  | _ => 0

/-- JS `String(x)` coercion for the cases the engine exercises (used by
`Error(x)` on a non-object and by the `"{{outcome}}"` substitution). -/
def jsToString : Value → String
  | .undef => "undefined"
  | .null => "null"
  | .bool b => if b then "true" else "false"
  | .num n => toString n
  | .str s => s
  | .err m => "Error: " ++ m
  | .obj _ => "[object Object]"
  | .promiseRef _ => "[object Object]"

/-- Modelled from the spec: the external aggregate-to-string encoder
(`json.encode`, §6 "Aggregate-to-string encoder"), which converts a
structured value into its JSON string form; used only when normalizing a
thrown non-Error aggregate into an error message. -/
def jsonEncode : Value → String
  | .undef => "null"
  | .null => "null"
  | .bool b => if b then "true" else "false"
  | .num n => toString n
  | .str s => "\"" ++ s ++ "\""
  | .err m => "\x7b\"message\":\"" ++ m ++ "\"\x7d"
  | .promiseRef _ => "\x7b\x7d"
  | .obj fields =>
    "\x7b" ++ String.intercalate ","
      (fields.map (fun f => "\"" ++ f.1 ++ "\":" ++
        (match f.2 with
         | .undef => "null"
         | .null => "null"
         | .bool b => if b then "true" else "false"
         | .num n => toString n
         | .str s => "\"" ++ s ++ "\""
         | _ => "\x7b\x7d"))) ++ "\x7d"

/-- Modelled from the spec: the double-settlement message template of the
external `label` module (§7: the error "nam[es] the current outcome");
`"{{outcome}}"` is substituted with the stringified outcome. -/
def labelPromiseResolved : String :=
  "The promise has been resolved: \x7b\x7boutcome\x7d\x7d"

/-- The `"{{outcome}}"` placeholder of `label.error.promiseResolved`. -/
def outcomePlaceholder : String := "\x7b\x7boutcome\x7d\x7d"

/-- Modelled from the spec: the invalid-arguments message of the external
`label` module. -/
def labelInvalidArguments : String := "Invalid arguments"

/-- Modelled from the spec: `string.isEmpty` of the external `string`
module — true for an empty/unspecified branch selector (§4.2). -/
def stringIsEmpty (s : String) : Bool := s.isEmpty

/-- Defunctionalized user callbacks.  `ret`/`thrw`/`retArg` are test
capabilities that record their invocation in the event log under `id`;
`forwardResolve`/`forwardReject` are the two closures
`function (arg) { self.resolve( arg ); }` / `… self.reject( arg ) …`
that the adoption branch of `then` attaches (they return `undefined`). -/
inductive UserFn where
  | ret (id : Nat) (v : Value) : UserFn
  | thrw (id : Nat) (v : Value) : UserFn
  | retArg (id : Nat) : UserFn
  | forwardResolve (r : Nat) : UserFn
  | forwardReject (r : Nat) : UserFn
deriving Repr

/-- A registered continuation.  `thenWrap self deferred yay handler` is
the closure `function () { return fn(yay); }` that `then` registers via
`vouch` (capturing the owning promise, the derived promise and the
user handler for that branch); `userCont` is a bare function handed to
`vouch` directly. -/
inductive Cont where
  | thenWrap (selfRef deferredRef : Nat) (yay : Bool) (handler : UserFn) : Cont
  | userCont (f : UserFn) : Cont
deriving Repr

/-- The fields of a `Promise` object (`function Promise ()` in the
source), plus a `frozen` flag recording that `Object.freeze` ran. -/
structure PObj where
  error : List Cont
  fulfill : List Cont
  parentNode : Option Nat
  outcome : Value
  state : String
  frozen : Bool
deriving Repr

/-- `new Promise()`: both registries empty, no parent, `null` outcome,
pending state. -/
def mkPromise : PObj :=
  { error := [], fulfill := [], parentNode := none
    outcome := .null, state := statePending, frozen := false }

/-- A job on the deferred-execution queue: every callback the engine
hands to `utility.defer` is `promise.resolve.call(self, state, arg)`. -/
inductive Job where
  | settleJob (r : Nat) (stateLabel : String) (arg : Value) : Job
deriving Repr

/-- Machine state: the promise heap, the FIFO queue of deferred jobs
(modelled from the spec's scheduler contract, §6), and the event log of
test-callback invocations. -/
structure St where
  heap : List PObj
  queue : List Job
  log : List (Nat × Value)
deriving Repr

/-- Read a promise object (out-of-range reads yield a fresh promise;
claims always supply in-range references). -/
def getP (st : St) (r : Nat) : PObj := st.heap.getD r mkPromise

/-- Write a promise object. -/
def setP (st : St) (r : Nat) (p : PObj) : St :=
  { st with heap := st.heap.set r p }

/-- `promise.methods.resolve`: defer a settlement toward fulfilled and
return `this`. -/
def methodResolve (st : St) (selfRef : Nat) (arg : Value) : St × Value :=
  ({ st with queue := st.queue ++ [Job.settleJob selfRef stateResolved arg] },
   .promiseRef selfRef)

/-- `promise.methods.reject`: defer a settlement toward rejected and
return `this`. -/
def methodReject (st : St) (selfRef : Nat) (arg : Value) : St × Value :=
  ({ st with queue := st.queue ++ [Job.settleJob selfRef stateBroken arg] },
   .promiseRef selfRef)

/-- `promise.methods.resolved`: true iff the state is broken or
resolved. -/
def methodResolved (st : St) (selfRef : Nat) : Bool :=
  (getP st selfRef).state == stateBroken ||
    (getP st selfRef).state == stateResolved

/-- Run a user callback on an argument: test callbacks append to the
log and return/throw their value; forwarders call the resolve/reject
method of their captured promise and return `undefined`. -/
def runUser (st : St) (f : UserFn) (arg : Value) : St × Except Value Value :=
  match f with
  | .ret id v => ({ st with log := st.log ++ [(id, arg)] }, .ok v)
  | .thrw id v => ({ st with log := st.log ++ [(id, arg)] }, .error v)
  | .retArg id => ({ st with log := st.log ++ [(id, arg)] }, .ok arg)
  | .forwardResolve r => ((methodResolve st r arg).1, .ok .undef)
  | .forwardReject r => ((methodReject st r arg).1, .ok .undef)

/-- The partial result of the settlement drain: the `pending`, `error`,
`reason` and `result` locals of `promise.resolve`, plus how many
handlers were invoked (`purge.length`). -/
structure DrainOut where
  pendingF : Bool
  errorF : Bool
  reason : Value
  result : Value
  purged : Nat
deriving Repr

mutual

/-- `promise.resolve` (the settle operation): raise the double-settlement
error on a non-pending promise; otherwise set state and outcome, drain
the matching registry, then either finish (clear registries, possibly
reverse-propagate to a pending parent, freeze) or — when a handler
returned a Promise — keep the adoption state and purge the invoked
handlers. -/
def settle : Nat → St → Nat → String → Value → St × Except Value Value
  | 0, st, _, _, _ => (st, .error (.err "out of fuel"))
  | fuel + 1, st, selfRef, stateArg, val =>
    let p := getP st selfRef
    if p.state = statePending then
      let st := setP st selfRef { p with state := stateArg, outcome := val }
      let conts := if stateArg = stateBroken then (getP st selfRef).error
                   else (getP st selfRef).fulfill
      match drainLoop fuel st selfRef conts val false .undef .undef 0 with
      | (st, .error e) => (st, .error e)
      | (st, .ok d) =>
        if d.pendingF then
          -- handlers that have run are removed from the live registry
          let p := getP st selfRef
          let st :=
            if stateArg = stateBroken then
              setP st selfRef { p with error := p.error.drop d.purged }
            else
              setP st selfRef { p with fulfill := p.fulfill.drop d.purged }
          (st, .ok d.result)
        else
          let p := getP st selfRef
          let st := setP st selfRef { p with error := [], fulfill := [] }
          -- `if (!error) { result = reason; state = resolved; }`
          let resultF := if d.errorF then d.result else d.reason
          let stLabel := if d.errorF then stateBroken else stateResolved
          let p := getP st selfRef
          let st :=
            match p.parentNode with
            | none => st
            | some pr =>
              if (getP st pr).state = statePending then
                let arg := if truthy resultF then resultF else p.outcome
                if stLabel = stateResolved then (methodResolve st pr arg).1
                else (methodReject st pr arg).1
              else st
          let p := getP st selfRef
          let st := setP st selfRef { p with frozen := true }
          (st, .ok (.promiseRef selfRef))
    else
      (st, .error (.err (labelPromiseResolved.replace outcomePlaceholder
        (jsToString p.outcome))))

/-- The `array.each` drain of `promise.resolve`.  Modelled from the spec
(§4.2 step 3, §5 ordering): handlers run in registration order, each
invoked with the settlement value; a handler raising propagates out; a
Promise result stops the iteration (the callback returns `false`) after
the engine re-arms the promise to pending with a `null` outcome; an
Error result sets the error flag and reason. -/
def drainLoop : Nat → St → Nat → List Cont → Value → Bool → Value → Value →
    Nat → St × Except Value DrainOut
  | 0, st, _, _, _, _, _, _, _ => (st, .error (.err "out of fuel"))
  | _ + 1, st, _, [], _, errorF, reason, result, purged =>
    (st, .ok ⟨false, errorF, reason, result, purged⟩)
  | fuel + 1, st, selfRef, c :: rest, val, errorF, reason, _, purged =>
    match runCont fuel st c val with
    | (st, .error e) => (st, .error e)
    | (st, .ok result) =>
      if isPromiseRef result then
        let p := getP st selfRef
        let st := setP st selfRef
          { p with outcome := .null, state := statePending }
        (st, .ok ⟨true, errorF, reason, result, purged + 1⟩)
      else if isErr result then
        drainLoop fuel st selfRef rest val true result result (purged + 1)
      else
        drainLoop fuel st selfRef rest val errorF reason result (purged + 1)

/-- Invoke a registered continuation.  A bare `userCont` runs the user
function directly (its exceptions propagate to the caller, as for a
function handed to `vouch`).  A `thenWrap` is the wrapper `fn` of
`promise.methods.then`: call the branch handler with the owning
promise's outcome, normalize a thrown non-Error value (aggregates are
JSON-encoded first, then cast to an `Error`), and finish in
`finallyPart`. -/
def runCont : Nat → St → Cont → Value → St × Except Value Value
  | 0, st, _, _ => (st, .error (.err "out of fuel"))
  | _ + 1, st, .userCont f, arg => runUser st f arg
  | fuel + 1, st, .thenWrap selfRef deferredRef _yay handler, _ =>
    -- the wrapper's `error = yay ? false : true` initialization is dead in
    -- the source: the try block overwrites it after the handler returns and
    -- the catch block overwrites it when the handler throws
    let selfOutcome := (getP st selfRef).outcome
    match runUser st handler selfOutcome with
    | (st, .ok v) => finallyPart fuel st selfRef deferredRef false v
    | (st, .error e) =>
      let result :=
        if isUndef e || isErr e then e
        else if typeofObject e then .err (jsonEncode e)
        else .err (jsToString e)
      finallyPart fuel st selfRef deferredRef true result

/-- The `finally` block of `then`'s wrapper: a non-Promise result either
raises the invalid-arguments error (thrown `undefined` on the error
path) or settles the derived promise via its resolve/reject method with
`result || self.outcome`; a Promise result triggers adoption — the
owning promise is re-armed to pending, made the parent of the returned
promise, and forwarding continuations are registered on it. -/
def finallyPart : Nat → St → Nat → Nat → Bool → Value → St × Except Value Value
  | 0, st, _, _, _, _ => (st, .error (.err "out of fuel"))
  | fuel + 1, st, selfRef, deferredRef, error, result =>
    if isPromiseRef result then
      let p := getP st selfRef
      let st := setP st selfRef
        { p with state := statePending, outcome := .null }
      let qr := refOf result
      let q := getP st qr
      let st := setP st qr { q with parentNode := some selfRef }
      match thenOp fuel st qr (some (.forwardResolve selfRef))
          (some (.forwardReject selfRef)) with
      | (st, .error e) => (st, .error e)
      | (st, .ok _) => (st, .ok result)
    else
      if error && isUndef result then
        (st, .error (.err labelInvalidArguments))
      else
        let arg := if truthy result then result
                   else (getP st selfRef).outcome
        let st := if error then (methodReject st deferredRef arg).1
                  else (methodResolve st deferredRef arg).1
        (st, .ok result)

/-- `promise.methods.then`: create the derived promise, register a
wrapper for each function argument via `vouch` (a non-function argument
registers nothing), set the derived promise's `parentNode`, and return
the derived promise. -/
def thenOp : Nat → St → Nat → Option UserFn → Option UserFn →
    St × Except Value Value
  | 0, st, _, _, _ => (st, .error (.err "out of fuel"))
  | fuel + 1, st, selfRef, success, failure =>
    let deferredRef := st.heap.length
    let st := { st with heap := st.heap ++ [mkPromise] }
    let step1 :=
      match success with
      | some sf => vouch fuel st selfRef stateResolved
          (.thenWrap selfRef deferredRef true sf)
      | none => (st, .ok .undef)
    match step1 with
    | (st, .error e) => (st, .error e)
    | (st, .ok _) =>
      let step2 :=
        match failure with
        | some ff => vouch fuel st selfRef stateBroken
            (.thenWrap selfRef deferredRef false ff)
        | none => (st, .ok .undef)
      match step2 with
      | (st, .error e) => (st, .error e)
      | (st, .ok _) =>
        let pd := getP st deferredRef
        let st := setP st deferredRef { pd with parentNode := some selfRef }
        (st, .ok (.promiseRef deferredRef))

/-- `promise.vouch`: raise invalid-arguments on an empty selector;
append the continuation on a pending promise (to `fulfill` for the
resolved selector, else to `error`); invoke it immediately with the
stored outcome when the promise already settled to the selected branch;
drop it otherwise. -/
def vouch : Nat → St → Nat → String → Cont → St × Except Value Value
  | 0, st, _, _, _ => (st, .error (.err "out of fuel"))
  | fuel + 1, st, selfRef, stateArg, c =>
    if stringIsEmpty stateArg then
      (st, .error (.err labelInvalidArguments))
    else
      let p := getP st selfRef
      if p.state = statePending then
        let st :=
          if stateArg = stateResolved then
            setP st selfRef { p with fulfill := p.fulfill ++ [c] }
          else
            setP st selfRef { p with error := p.error ++ [c] }
        (st, .ok (.promiseRef selfRef))
      else if p.state = stateArg then
        match runCont fuel st c p.outcome with
        | (st, .error e) => (st, .error e)
        | (st, .ok _) => (st, .ok (.promiseRef selfRef))
      else
        (st, .ok (.promiseRef selfRef))

end

/-- Run one deferred job (all deferred callbacks are settlements). -/
def runJob (fuel : Nat) (st : St) : Job → St × Except Value Value
  | .settleJob r s v => settle fuel st r s v

/-- Run the deferred queue FIFO until empty, collecting the exception
raised by each failing job (a job's exception aborts only its own turn,
as for a host timer callback). -/
def runQueue : Nat → St → St × List Value
  | 0, st => (st, [])
  | fuel + 1, st =>
    match st.queue with
    | [] => (st, [])
    | j :: rest =>
      let out := runJob fuel { st with queue := rest } j
      let outQ := runQueue fuel out.1
      (outQ.1,
        (match out.2 with | .error e => [e] | .ok _ => []) ++ outQ.2)

/-! ## Scenario states shared by the claims -/

/-- A machine with a single fresh pending promise at reference 0. -/
def st1p : St := { heap := [mkPromise], queue := [], log := [] }

/-- A machine with two fresh pending promises (references 0 and 1). -/
def st2p : St := { heap := [mkPromise, mkPromise], queue := [], log := [] }

/-- A machine whose promise 0 is already fulfilled with `42`. -/
def settled42 : St :=
  { heap := [{ mkPromise with state := stateResolved, outcome := .num 42 }],
    queue := [], log := [] }

/-! ## Claim C2 -/

/-- The adoption scenario: promises `p` (0) and `q` (1), the derived
promise `d := p.then(f)` (2) where `f` returns `q`, then `p.resolve(w)`
(promise 3 is the extra derived promise that the adoption-internal
`q.then(forwarders)` creates). -/
def c2St (idf : Nat) (w : Value) : St :=
  (methodResolve (thenOp 20 st2p 0 (some (.ret idf (.promiseRef 1))) none).1 0 w).1

/-- `q` after adoption: carrying the two forwarding wrappers and
`parentNode = p`. -/
def c2MidQ : PObj :=
  { error := [.thenWrap 1 3 false (.forwardReject 0)],
    fulfill := [.thenWrap 1 3 true (.forwardResolve 0)],
    parentNode := some 0, outcome := .null, state := statePending,
    frozen := false }

/-- A fresh pending promise whose `parentNode` is `r`. -/
def pendingChildOf (r : Nat) : PObj :=
  { error := [], fulfill := [], parentNode := some r, outcome := .null,
    state := statePending, frozen := false }

/-- The machine state after `p.resolve(w)`'s deferred job has run in the
adoption scenario. -/
def c2Mid (idf : Nat) (w : Value) : St :=
  { heap := [mkPromise, c2MidQ, pendingChildOf 0, pendingChildOf 1],
    queue := [], log := [(idf, w)] }

/-- A settled (and frozen) promise object. -/
def settledP (lab : String) (par : Option Nat) (v : Value) : PObj :=
  { error := [], fulfill := [], parentNode := par, outcome := v, state := lab,
    frozen := true }

/-! ## Claim C5 -/

/-- The chaining scenario `p.then(f).then(g)`: the first `then` on `p`
(reference 0) returns the derived promise at reference 1, on which the
second `then` registers `g`; `f = ret idf x`, `g = ret idg y`, followed
by `p.resolve(w)`. -/
def c5St (idf idg : Nat) (x y w : Value) : St :=
  (methodResolve
    (thenOp 20 (thenOp 20 st1p 0 (some (.ret idf x)) none).1
      1 (some (.ret idg y)) none).1 0 w).1

/-- `p` with the wrapper for `f` registered. -/
def c5P0 (idf : Nat) (x : Value) : PObj :=
  { error := [], fulfill := [.thenWrap 0 1 true (.ret idf x)],
    parentNode := none, outcome := .null, state := statePending,
    frozen := false }

/-- The first derived promise with the wrapper for `g` registered. -/
def c5D1 (idg : Nat) (y : Value) : PObj :=
  { error := [], fulfill := [.thenWrap 1 2 true (.ret idg y)],
    parentNode := some 0, outcome := .null, state := statePending,
    frozen := false }

/-- The machine right after registration and `p.resolve(w)`. -/
def c5StA (idf idg : Nat) (x y w : Value) : St :=
  { heap := [c5P0 idf x, c5D1 idg y, pendingChildOf 1],
    queue := [.settleJob 0 stateResolved w], log := [] }

/-- After `p`'s settlement job: `f` ran with `w`; `u` is the value the
first derived promise's queued settlement carries. -/
def c5StB (idf idg : Nat) (y w u : Value) : St :=
  { heap := [settledP stateResolved none w, c5D1 idg y, pendingChildOf 1],
    queue := [.settleJob 1 stateResolved u], log := [(idf, w)] }

/-- After the first derived promise's settlement job: `g` ran with `u`;
`u2` is the value queued for the second derived promise. -/
def c5StC (idf idg : Nat) (w u u2 : Value) : St :=
  { heap := [settledP stateResolved none w, settledP stateResolved (some 0) u,
      pendingChildOf 1],
    queue := [.settleJob 2 stateResolved u2], log := [(idf, w), (idg, u)] }

/-- After the second derived promise's settlement job. -/
def c5StD (idf idg : Nat) (w u u2 : Value) : St :=
  { heap := [settledP stateResolved none w, settledP stateResolved (some 0) u,
      settledP stateResolved (some 1) u2],
    queue := [], log := [(idf, w), (idg, u)] }

/-! ## Claim C6 -/

/-- A fulfilled settlement whose drain produces an `Error` result: the
promise at 1 is pending with one registered success continuation that
returns an `Error`, and has a pending parent at 0. -/
def c6Child (id : Nat) (m : String) : PObj :=
  { error := [], fulfill := [.userCont (.ret id (.err m))],
    parentNode := some 0, outcome := .null, state := statePending,
    frozen := false }

/-- The machine for the C6 scenario: pending parent at 0, `c6Child`
at 1. -/
def c6St (id : Nat) (m : String) : St :=
  { heap := [mkPromise, c6Child id m], queue := [], log := [] }

/-- A parentless variant of the same scenario: a single pending promise
whose one success continuation returns an `Error`. -/
def c6CexP : PObj :=
  { error := [], fulfill := [.userCont (.ret 1 (.err "boom"))],
    parentNode := none, outcome := .null, state := statePending,
    frozen := false }

def c6CexSt : St := { heap := [c6CexP], queue := [], log := [] }

/-! ## Claim C7 -/

/-- `p.then(f)` where `f` throws the plain object `{fields}`, then
`p.resolve(w)`. -/
def c7St (id : Nat) (fields : List (String × Value)) (w : Value) : St :=
  (methodResolve
    (thenOp 20 st1p 0 (some (.thrw id (.obj fields))) none).1 0 w).1

/-! ## Claim C8 -/

/-- A rejected promise whose rejection continuation returns `undefined`
normally. -/
def c8aSt (id : Nat) (w : Value) : St :=
  (methodReject (thenOp 20 st1p 0 none (some (.ret id .undef))).1 0 w).1

/-- A rejected promise whose rejection continuation throws `undefined`. -/
def c8bSt (id : Nat) (w : Value) : St :=
  (methodReject (thenOp 20 st1p 0 none (some (.thrw id .undef))).1 0 w).1

/-! ## Claim C9 -/

def c9St (id1 id2 : Nat) (v1 v2 : Value) : St :=
  (methodResolve
    (thenOp 20 (thenOp 20 st1p 0 (some (.ret id1 v1)) none).1
      0 (some (.ret id2 v2)) none).1 0 (.str "x")).1

def c9P0 (id1 id2 : Nat) (v1 v2 : Value) : PObj :=
  { error := [],
    fulfill := [.thenWrap 0 1 true (.ret id1 v1),
      .thenWrap 0 2 true (.ret id2 v2)],
    parentNode := none, outcome := .null, state := statePending,
    frozen := false }

def c9StA (id1 id2 : Nat) (v1 v2 : Value) : St :=
  { heap := [c9P0 id1 id2 v1 v2, pendingChildOf 0, pendingChildOf 0],
    queue := [.settleJob 0 stateResolved (.str "x")], log := [] }

def c9StB (id1 id2 : Nat) (u1 u2 : Value) : St :=
  { heap := [settledP stateResolved none (.str "x"), pendingChildOf 0,
      pendingChildOf 0],
    queue := [.settleJob 1 stateResolved u1, .settleJob 2 stateResolved u2],
    log := [(id1, .str "x"), (id2, .str "x")] }

def c9StC (id1 id2 : Nat) (u1 u2 : Value) : St :=
  { heap := [settledP stateResolved none (.str "x"),
      settledP stateResolved (some 0) u1, pendingChildOf 0],
    queue := [.settleJob 2 stateResolved u2],
    log := [(id1, .str "x"), (id2, .str "x")] }

def c9StD (id1 id2 : Nat) (u1 u2 : Value) : St :=
  { heap := [settledP stateResolved none (.str "x"),
      settledP stateResolved (some 0) u1, settledP stateResolved (some 0) u2],
    queue := [],
    log := [(id1, .str "x"), (id2, .str "x")] }

def c9CexSt : St :=
  (methodResolve
    (thenOp 20 (thenOp 20 st2p 0 (some (.ret 1 (.promiseRef 1))) none).1
      0 (some (.ret 2 (.num 5))) none).1 0 (.str "x")).1

def c9CexP1 : PObj :=
  { error := [], fulfill := [.thenWrap 0 3 true (.ret 2 (.num 5))],
    parentNode := none, outcome := .null, state := statePending,
    frozen := false }

def c9CexQ : PObj :=
  { error := [.thenWrap 1 4 false (.forwardReject 0)],
    fulfill := [.thenWrap 1 4 true (.forwardResolve 0)],
    parentNode := some 0, outcome := .null, state := statePending,
    frozen := false }

def c9CexStB : St :=
  { heap := [c9CexP1, c9CexQ, pendingChildOf 0, pendingChildOf 0,
      pendingChildOf 1],
    queue := [], log := [(1, .str "x")] }

/-! ## Claim C10

The frame property needs an invariant: no operation of the engine's
synchronous call cycle (`drainLoop` / `runCont` / `finallyPart` /
`thenOp` / `vouch`) can move a heap entry out of the pending-with-null
state — the only writes are re-arms to pending/null, field updates that
keep `state`/`outcome`, and allocations of fresh pending promises; a
`settle` call can only take its own target out of pending. -/

/-- Heap entry `d` is pending with a `null` outcome (out-of-range
entries read as fresh promises, so this is vacuous there). -/
def pendNull (d : Nat) (st : St) : Prop :=
  (getP st d).state = statePending ∧ (getP st d).outcome = .null

/-! ## Helper lemmas about heap reads and writes -/

theorem getP_setP_ne (st : St) (r d : Nat) (o : PObj) (h : r ≠ d) :
    getP (setP st r o) d = getP st d := by
  simp [getP, setP, List.getD_eq_getElem?_getD, List.getElem?_set_ne h]

theorem getP_setP_self (st : St) (r : Nat) (o : PObj) :
    getP (setP st r o) r = if r < st.heap.length then o else getP st r := by
  by_cases h : r < st.heap.length
  · simp [getP, setP, List.getD_eq_getElem?_getD, List.getElem?_set_self',
      List.getElem?_eq_getElem h, h]
  · simp [getP, setP, List.getD_eq_getElem?_getD, List.getElem?_set_self',
      List.getElem?_eq_none (Nat.le_of_not_lt h), h]

theorem stringIsEmpty_fulfilled : stringIsEmpty "fulfilled" = false := by decide

theorem stringIsEmpty_rejected : stringIsEmpty "rejected" = false := by decide

theorem stringIsEmpty_empty : stringIsEmpty "" = true := by decide

/-! ## Claim C1 -/

/-- Claim C1: calling the settle operation (`promise.resolve` with a
state label and a value) on a promise whose state is not pending raises
the double-settlement error — whose message names the current outcome
via the `"{{outcome}}"` substitution — and leaves the whole machine
state, in particular the promise's `state` and `outcome`, exactly as it
was. -/
theorem claim_C1 (st : St) (r : Nat) (s : String) (v : Value) (f : Nat)
    (h : (getP st r).state ≠ statePending) :
    settle (f + 1) st r s v =
      (st, .error (.err (labelPromiseResolved.replace outcomePlaceholder
        (jsToString (getP st r).outcome)))) := by
  simp [settle, h]

theorem claim_C1_witness :
    (getP settled42 0).state ≠ statePending ∧
    settle 5 settled42 0 stateResolved (.num 1) =
      (settled42, .error (.err (labelPromiseResolved.replace outcomePlaceholder
        (jsToString (getP settled42 0).outcome)))) :=
  ⟨by decide, claim_C1 settled42 0 stateResolved (.num 1) 4 (by decide)⟩

/-! ## Claim C3 -/

theorem setP_queue (st : St) (r : Nat) (o : PObj) : (setP st r o).queue = st.queue := rfl

theorem setP_log (st : St) (r : Nat) (o : PObj) : (setP st r o).log = st.log := rfl

theorem setP_heap_length (st : St) (r : Nat) (o : PObj) :
    (setP st r o).heap.length = st.heap.length := by simp [setP]

theorem getP_methodResolve (st : St) (r : Nat) (v : Value) (d : Nat) :
    getP (methodResolve st r v).1 d = getP st d := rfl

theorem getP_methodReject (st : St) (r : Nat) (v : Value) (d : Nat) :
    getP (methodReject st r v).1 d = getP st d := rfl

theorem methodResolve_heap (st : St) (r : Nat) (v : Value) :
    (methodResolve st r v).1.heap = st.heap := rfl

theorem methodReject_heap (st : St) (r : Nat) (v : Value) :
    (methodReject st r v).1.heap = st.heap := rfl

/-- Evaluating the settle operation on a pending promise with no
registered success continuations: its state becomes the resolved
label (whatever its parent may be). -/
theorem settle_empty_state (st : St) (r : Nat) (v : Value) (f : Nat)
    (hr : r < st.heap.length)
    (hp : (getP st r).state = statePending)
    (hf : (getP st r).fulfill = []) :
    (getP (settle (f + 2) st r stateResolved v).1 r).state = stateResolved := by
  simp only [settle, drainLoop, hp, hf, hr, getP_setP_self, setP_heap_length,
    getP_methodResolve, getP_methodReject,
    statePending, stateResolved, stateBroken, if_true, if_false, reduceIte,
    String.reduceEq, ite_true, ite_false, if_pos, if_neg]
  repeat' split
  all_goals simp_all [getP_setP_self, setP_heap_length, hr, getP_methodResolve,
    getP_methodReject, methodResolve_heap, methodReject_heap, truthy]

/-- Claim C3: the public resolve/reject methods only append one deferred
settlement job to the queue and return `this`, leaving the heap — and
hence `resolved()` — untouched within the same synchronous call (for a
pending promise it stays false); `resolved()` becomes true once the
enqueued settlement job runs. -/
theorem claim_C3 (st : St) (r : Nat) (v : Value) (f : Nat)
    (hr : r < st.heap.length)
    (hp : (getP st r).state = statePending)
    (hf : (getP st r).fulfill = []) :
    methodResolve st r v =
      ({ st with queue := st.queue ++ [.settleJob r stateResolved v] },
        .promiseRef r) ∧
    methodReject st r v =
      ({ st with queue := st.queue ++ [.settleJob r stateBroken v] },
        .promiseRef r) ∧
    methodResolved (methodResolve st r v).1 r = false ∧
    methodResolved (methodReject st r v).1 r = false ∧
    methodResolved (runJob (f + 2) (methodResolve st r v).1
        (.settleJob r stateResolved v)).1 r = true := by
  refine ⟨rfl, rfl, ?_, ?_, ?_⟩
  · simp [methodResolved, getP_methodResolve, hp, statePending, stateBroken,
      stateResolved]
  · simp [methodResolved, getP_methodReject, hp, statePending, stateBroken,
      stateResolved]
  · have h := settle_empty_state (methodResolve st r v).1 r v f hr
      (by simpa [getP_methodResolve] using hp)
      (by simpa [getP_methodResolve] using hf)
    simp only [stateResolved] at h
    simp [runJob, methodResolved, h, stateResolved, stateBroken]

theorem claim_C3_witness :
    methodResolved (methodResolve st1p 0 (.num 42)).1 0 = false ∧
    methodResolved (methodReject st1p 0 (.num 42)).1 0 = false ∧
    methodResolved (runJob 20 (methodResolve st1p 0 (.num 42)).1
        (.settleJob 0 stateResolved (.num 42))).1 0 = true :=
  (claim_C3 st1p 0 (.num 42) 18 (by decide) rfl rfl).2.2

/-! ## Claim C4 -/

/-- Claim C4: `promise.vouch` with an empty branch selector raises the
invalid-arguments error; on a pending promise it appends the
continuation to the ordered registry of the selected branch without
invoking it; on a promise already settled to the selected branch it
invokes the continuation synchronously at registration time, exactly
once, with the stored outcome (one new log entry, nothing stored); and
on a promise settled to the other branch it neither invokes nor stores
it. -/
theorem claim_C4 (st : St) (r : Nat) (s : String) (id : Nat) (v : Value)
    (f : Nat) (hs : s = stateResolved ∨ s = stateBroken) :
    (vouch (f + 1) st r "" (.userCont (.ret id v)) =
      (st, .error (.err labelInvalidArguments))) ∧
    ((getP st r).state = statePending →
      vouch (f + 2) st r s (.userCont (.ret id v)) =
        ((if s = stateResolved then
            setP st r { getP st r with
              fulfill := (getP st r).fulfill ++ [.userCont (.ret id v)] }
          else
            setP st r { getP st r with
              error := (getP st r).error ++ [.userCont (.ret id v)] }),
         .ok (.promiseRef r))) ∧
    ((getP st r).state = s →
      vouch (f + 2) st r s (.userCont (.ret id v)) =
        ({ st with log := st.log ++ [(id, (getP st r).outcome)] },
         .ok (.promiseRef r))) ∧
    ((getP st r).state ≠ s → (getP st r).state ≠ statePending →
      vouch (f + 2) st r s (.userCont (.ret id v)) =
        (st, .ok (.promiseRef r))) := by
  refine ⟨by simp [vouch, stringIsEmpty_empty], ?_, ?_, ?_⟩
  · intro hp
    rcases hs with hs | hs <;> subst hs <;>
      simp [vouch, stringIsEmpty_fulfilled, stringIsEmpty_rejected, hp,
        statePending, stateResolved, stateBroken]
  · intro hst
    rcases hs with hs | hs <;> subst hs <;>
      simp [vouch, stringIsEmpty_fulfilled, stringIsEmpty_rejected, hst,
        runCont, runUser, statePending, stateResolved, stateBroken]
  · intro hne hnp
    rcases hs with hs | hs <;> subst hs <;>
      simp only [stateResolved, stateBroken, statePending] at hne hnp <;>
      simp [vouch, stringIsEmpty_fulfilled, stringIsEmpty_rejected,
        stateResolved, stateBroken, statePending, hne, hnp]

theorem claim_C4_witness :
    vouch 5 settled42 0 stateResolved (.userCont (.ret 7 (.num 3))) =
      ({ settled42 with log := settled42.log ++ [(7, (getP settled42 0).outcome)] },
       .ok (.promiseRef 0)) :=
  (claim_C4 settled42 0 stateResolved 7 (.num 3) 3 (Or.inl rfl)).2.2.1 rfl

/-! ## Claim C2: staged evaluation and theorems -/

set_option maxHeartbeats 1000000 in
theorem c2_phase1 (idf : Nat) (w : Value) :
    (runQueue 30 (c2St idf w)).1 = c2Mid idf w := by
  simp [c2St, st2p, c2Mid, c2MidQ, pendingChildOf, runQueue, runJob, settle,
    drainLoop, runCont, refOf, finallyPart, thenOp, vouch, runUser, methodResolve,
    methodReject, getP, setP, mkPromise, isPromiseRef, isErr, isUndef,
    typeofObject, truthy, stringIsEmpty_fulfilled, stringIsEmpty_rejected,
    statePending, stateResolved, stateBroken]

set_option maxHeartbeats 1000000 in
theorem c2_phase2f (idf : Nat) (w v : Value) :
    (runQueue 30 (methodResolve (c2Mid idf w) 1 v).1).1 =
      { heap := [settledP stateResolved none v, settledP stateResolved (some 0) v,
          pendingChildOf 0, settledP stateResolved (some 1) v],
        queue := [], log := [(idf, w)] } := by
  simp [c2Mid, c2MidQ, pendingChildOf, settledP, runQueue, runJob, settle,
    drainLoop, runCont, refOf, finallyPart, thenOp, vouch, runUser, methodResolve,
    methodReject, getP, setP, mkPromise, isPromiseRef, isErr, isUndef,
    typeofObject, truthy, stringIsEmpty_fulfilled, stringIsEmpty_rejected,
    statePending, stateResolved, stateBroken]

set_option maxHeartbeats 1000000 in
theorem c2_phase2r (idf : Nat) (w v : Value) :
    (runQueue 30 (methodReject (c2Mid idf w) 1 v).1).1 =
      { heap := [settledP stateBroken none v, settledP stateBroken (some 0) v,
          pendingChildOf 0, settledP stateResolved (some 1) v],
        queue := [], log := [(idf, w)] } := by
  simp [c2Mid, c2MidQ, pendingChildOf, settledP, runQueue, runJob, settle,
    drainLoop, runCont, refOf, finallyPart, thenOp, vouch, runUser, methodResolve,
    methodReject, getP, setP, mkPromise, isPromiseRef, isErr, isUndef,
    typeofObject, truthy, stringIsEmpty_fulfilled, stringIsEmpty_rejected,
    statePending, stateResolved, stateBroken]

/-- Claim C2 counterexample: in `p.then(f)` with `f` returning the
promise `q`, after `q` settles (and the deferred queue drains) the
*derived* promise that `then` returned (reference 2) is still pending
with a `null` outcome while `q` is fulfilled — the derived promise does
not settle to `q`'s state. -/
theorem claim_C2_counterexample :
    (getP (runQueue 30 (methodResolve (runQueue 30 (c2St 1 (.str "w"))).1
        1 (.str "v")).1).1 2).state = statePending ∧
    (getP (runQueue 30 (methodResolve (runQueue 30 (c2St 1 (.str "w"))).1
        1 (.str "v")).1).1 2).outcome = .null ∧
    (getP (runQueue 30 (methodResolve (runQueue 30 (c2St 1 (.str "w"))).1
        1 (.str "v")).1).1 1).state = stateResolved ∧
    statePending ≠ stateResolved := by
  rw [c2_phase1, c2_phase2f]
  exact ⟨rfl, rfl, rfl, by decide⟩

/-- Claim C2 as amended: adoption re-arms the *original* promise `p`
(the receiver of `then`), not the derived one: after `p.resolve(w)`'s
deferred job runs, `p` is pending with outcome cleared, `q` carries the
two forwarding continuations and `parentNode = p`, and the derived
promise is pending; once `q` settles (either direction), `p` — not the
derived promise — settles to `q`'s state and outcome, while the derived
promise stays pending with a `null` outcome. -/
theorem claim_C2 (idf : Nat) (w v : Value) :
    ((getP (runQueue 30 (c2St idf w)).1 0).state = statePending ∧
     (getP (runQueue 30 (c2St idf w)).1 0).outcome = .null ∧
     (getP (runQueue 30 (c2St idf w)).1 1).fulfill =
       [.thenWrap 1 3 true (.forwardResolve 0)] ∧
     (getP (runQueue 30 (c2St idf w)).1 1).error =
       [.thenWrap 1 3 false (.forwardReject 0)] ∧
     (getP (runQueue 30 (c2St idf w)).1 1).parentNode = some 0 ∧
     (getP (runQueue 30 (c2St idf w)).1 2).state = statePending) ∧
    ((getP (runQueue 30 (methodResolve (runQueue 30 (c2St idf w)).1 1 v).1).1
        0).state = stateResolved ∧
     (getP (runQueue 30 (methodResolve (runQueue 30 (c2St idf w)).1 1 v).1).1
        0).outcome = v ∧
     (getP (runQueue 30 (methodResolve (runQueue 30 (c2St idf w)).1 1 v).1).1
        2).state = statePending ∧
     (getP (runQueue 30 (methodResolve (runQueue 30 (c2St idf w)).1 1 v).1).1
        2).outcome = .null) ∧
    ((getP (runQueue 30 (methodReject (runQueue 30 (c2St idf w)).1 1 v).1).1
        0).state = stateBroken ∧
     (getP (runQueue 30 (methodReject (runQueue 30 (c2St idf w)).1 1 v).1).1
        0).outcome = v ∧
     (getP (runQueue 30 (methodReject (runQueue 30 (c2St idf w)).1 1 v).1).1
        2).state = statePending ∧
     (getP (runQueue 30 (methodReject (runQueue 30 (c2St idf w)).1 1 v).1).1
        2).outcome = .null) := by
  rw [c2_phase1, c2_phase2f, c2_phase2r]
  exact ⟨⟨rfl, rfl, rfl, rfl, rfl, rfl⟩, ⟨rfl, rfl, rfl, rfl⟩,
    ⟨rfl, rfl, rfl, rfl⟩⟩

/-! ## Claim C5: staged evaluation and theorems -/

theorem c5StA_queue (idf idg : Nat) (x y w : Value) :
    (c5StA idf idg x y w).queue = [.settleJob 0 stateResolved w] := rfl

theorem c5StB_queue (idf idg : Nat) (y w u : Value) :
    (c5StB idf idg y w u).queue = [.settleJob 1 stateResolved u] := rfl

theorem c5StC_queue (idf idg : Nat) (w u u2 : Value) :
    (c5StC idf idg w u u2).queue = [.settleJob 2 stateResolved u2] := rfl

theorem c5StD_queue (idf idg : Nat) (w u u2 : Value) :
    (c5StD idf idg w u u2).queue = [] := rfl

theorem c5_setup (idf idg : Nat) (x y w : Value) :
    c5St idf idg x y w = c5StA idf idg x y w := by
  simp [c5St, st1p, thenOp, vouch, methodResolve, getP, setP, mkPromise,
    c5StA, c5P0, c5D1, pendingChildOf, stringIsEmpty_fulfilled,
    stringIsEmpty_rejected, statePending, stateResolved, stateBroken]

theorem c5_j1 (idf idg : Nat) (x y w : Value)
    (px : isPromiseRef x = false) :
    settle 29 { c5StA idf idg x y w with queue := [] } 0 stateResolved w =
      (c5StB idf idg y w (if truthy x = true then x else w),
       .ok (.promiseRef 0)) := by
  by_cases ex : isErr x = true <;> by_cases tx : truthy x = true <;>
    simp [settle, drainLoop, runCont, refOf, finallyPart, runUser,
      methodResolve, methodReject, getP, setP, mkPromise, c5StA, c5StB,
      c5P0, c5D1, pendingChildOf, settledP, isUndef, typeofObject,
      statePending, stateResolved, stateBroken, px, ex, tx]

theorem c5_j2 (idf idg : Nat) (y w u : Value)
    (py : isPromiseRef y = false) :
    settle 28 { c5StB idf idg y w u with queue := [] } 1 stateResolved u =
      (c5StC idf idg w u (if truthy y = true then y else u),
       .ok (.promiseRef 1)) := by
  by_cases ey : isErr y = true <;> by_cases ty : truthy y = true <;>
    simp [settle, drainLoop, runCont, refOf, finallyPart, runUser,
      methodResolve, methodReject, getP, setP, mkPromise, c5StB, c5StC,
      c5D1, pendingChildOf, settledP, isUndef, typeofObject,
      statePending, stateResolved, stateBroken, py, ey, ty]

theorem c5_j3 (idf idg : Nat) (w u u2 : Value) :
    settle 27 { c5StC idf idg w u u2 with queue := [] } 2 stateResolved u2 =
      (c5StD idf idg w u u2, .ok (.promiseRef 2)) := by
  simp [settle, drainLoop, runCont, refOf, finallyPart, runUser,
    methodResolve, methodReject, getP, setP, mkPromise, c5StC, c5StD,
    pendingChildOf, settledP, isUndef, typeofObject,
    statePending, stateResolved, stateBroken]

/-- Running the whole deferred queue of the chaining scenario, from the
explicit post-registration state. -/
theorem c5_run (idf idg : Nat) (x y w : Value)
    (px : isPromiseRef x = false) (py : isPromiseRef y = false) :
    runQueue 30 (c5StA idf idg x y w) =
      (c5StD idf idg w (if truthy x = true then x else w)
        (if truthy y = true then y
         else if truthy x = true then x else w), []) := by
  simp only [runQueue, runJob, c5StA_queue, c5StB_queue, c5StC_queue,
    c5StD_queue, c5_j1 idf idg x y w px,
    c5_j2 idf idg y w (if truthy x = true then x else w) py,
    c5_j3 idf idg w (if truthy x = true then x else w)
      (if truthy y = true then y else if truthy x = true then x else w),
    List.append_nil, List.nil_append]

/-- Claim C5 counterexample: with `f` returning the falsy plain value
`0` and `p` fulfilled with `"w"`, the second continuation `g` is invoked
with `"w"` (the `result || self.outcome` fallback substitutes the parent
outcome), not with `0`. -/
theorem claim_C5_counterexample :
    (runQueue 30 (c5St 1 2 (.num 0) (.num 9) (.str "w"))).1.log =
      [(1, .str "w"), (2, .str "w")] ∧
    Value.str "w" ≠ Value.num 0 := by
  rw [c5_setup, c5_run 1 2 (.num 0) (.num 9) (.str "w") rfl rfl]
  exact ⟨rfl, by simp⟩

/-- Claim C5 as amended: in `p.then(f).then(g)` with `f` returning the
plain (non-Promise) value `x`, `g` is invoked with `x` itself — never
with a Promise — provided `x` is truthy, and the run raises nothing.
(For falsy `x` the `result || self.outcome` fallback substitutes `p`'s
outcome instead, see the counterexample.) -/
theorem claim_C5 (idf idg : Nat) (x y w : Value)
    (tx : truthy x = true) (px : isPromiseRef x = false)
    (py : isPromiseRef y = false) :
    (runQueue 30 (c5St idf idg x y w)).1.log = [(idf, w), (idg, x)] ∧
    (runQueue 30 (c5St idf idg x y w)).2 = [] := by
  rw [c5_setup, c5_run idf idg x y w px py, tx]
  exact ⟨rfl, rfl⟩

theorem claim_C5_witness :
    (runQueue 30 (c5St 1 2 (.num 7) (.num 9) (.str "w"))).1.log =
      [(1, .str "w"), (2, .num 7)] ∧
    (runQueue 30 (c5St 1 2 (.num 7) (.num 9) (.str "w"))).2 = [] :=
  claim_C5 1 2 (.num 7) (.num 9) (.str "w") (by decide) (by decide)
    (by decide)

/-- Claim C6 counterexample: settling toward fulfilled with a drain that
produced an `Error` result does NOT flip the promise's own final state
to rejected, nor its outcome to that `Error`: the state stays
`"fulfilled"` and the outcome stays the settlement value. -/
theorem claim_C6_counterexample :
    (getP (settle 20 c6CexSt 0 stateResolved (.num 5)).1 0).state
        = stateResolved ∧
    (getP (settle 20 c6CexSt 0 stateResolved (.num 5)).1 0).outcome
        = .num 5 ∧
    stateResolved ≠ stateBroken ∧
    Value.num 5 ≠ Value.err "boom" := by
  refine ⟨?_, ?_, by decide, by simp⟩ <;>
    simp [settle, drainLoop, runCont, runUser, getP, setP, c6CexSt, c6CexP,
      mkPromise, methodReject, methodResolve, isPromiseRef, isErr, truthy,
      statePending, stateResolved, stateBroken]

/-- Claim C6 as amended: when a fulfilled-direction drain produces an
`Error` result (and no adoption occurs), the promise itself keeps the
requested fulfilled state and the requested outcome; the error result
instead flips the *reverse propagation* direction — a still-pending
parent is scheduled for rejection with that `Error` via its reject
method. -/
theorem claim_C6 (v : Value) (m : String) (id : Nat) :
    settle 20 (c6St id m) 1 stateResolved v =
      ({ heap := [mkPromise,
           { error := [], fulfill := [], parentNode := some 0, outcome := v,
             state := stateResolved, frozen := true }],
         queue := [.settleJob 0 stateBroken (.err m)],
         log := [(id, v)] }, .ok (.promiseRef 1)) := by
  simp [settle, drainLoop, runCont, runUser, getP, setP, c6St, c6Child,
    mkPromise, methodReject, methodResolve, isPromiseRef, isErr, truthy,
    statePending, stateResolved, stateBroken]

/-- Claim C7: a continuation that throws a plain structured object makes
the derived promise reject with an `Error` whose message is the
JSON-serialized form of that object — never the raw object — and no
exception escapes the engine (the deferred run reports no raised
errors). -/
theorem claim_C7 (id : Nat) (fields : List (String × Value)) (w : Value) :
    (getP (runQueue 30 (c7St id fields w)).1 1).state = stateBroken ∧
    (getP (runQueue 30 (c7St id fields w)).1 1).outcome =
      .err (jsonEncode (.obj fields)) ∧
    (runQueue 30 (c7St id fields w)).2 = [] := by
  refine ⟨?_, ?_, ?_⟩ <;>
    simp [c7St, st1p, runQueue, runJob, settle, drainLoop, runCont, refOf,
      finallyPart, thenOp, vouch, runUser, methodResolve, methodReject,
      getP, setP, mkPromise, isPromiseRef, isErr, isUndef, typeofObject,
      truthy, stringIsEmpty_fulfilled, stringIsEmpty_rejected,
      statePending, stateResolved, stateBroken]

/-- Claim C8 counterexample: a rejection-branch continuation that
completes normally returning `undefined` raises NO error — the deferred
run reports no raised exceptions and the derived promise ends up
silently fulfilled. -/
theorem claim_C8_counterexample :
    (runQueue 30 (c8aSt 1 (.str "w"))).2 = [] ∧
    (getP (runQueue 30 (c8aSt 1 (.str "w"))).1 1).state = stateResolved ∧
    stateResolved ≠ stateBroken := by
  refine ⟨?_, ?_, by decide⟩ <;>
    simp [c8aSt, st1p, runQueue, runJob, settle, drainLoop, runCont, refOf,
      finallyPart, thenOp, vouch, runUser, methodResolve, methodReject,
      getP, setP, mkPromise, isPromiseRef, isErr, isUndef, typeofObject,
      truthy, stringIsEmpty_fulfilled, stringIsEmpty_rejected,
      statePending, stateResolved, stateBroken]

/-- Claim C8 as amended: a rejection-branch continuation that completes
normally returning `undefined` raises no error — the derived promise is
resolved with the parent's stored outcome (the `result || self.outcome`
fallback).  The invalid-arguments error is raised only when the
continuation *throws* `undefined`, in which case it aborts the drain
and the derived promise stays pending. -/
theorem claim_C8 (id : Nat) (w : Value) :
    ((runQueue 30 (c8aSt id w)).2 = [] ∧
     (getP (runQueue 30 (c8aSt id w)).1 1).state = stateResolved ∧
     (getP (runQueue 30 (c8aSt id w)).1 1).outcome = w) ∧
    ((runQueue 30 (c8bSt id w)).2 = [.err labelInvalidArguments] ∧
     (getP (runQueue 30 (c8bSt id w)).1 1).state = statePending ∧
     (getP (runQueue 30 (c8bSt id w)).1 1).outcome = .null) := by
  refine ⟨⟨?_, ?_, ?_⟩, ⟨?_, ?_, ?_⟩⟩ <;>
    simp [c8aSt, c8bSt, st1p, runQueue, runJob, settle, drainLoop, runCont, refOf,
      finallyPart, thenOp, vouch, runUser, methodResolve, methodReject,
      getP, setP, mkPromise, isPromiseRef, isErr, isUndef, typeofObject,
      truthy, stringIsEmpty_fulfilled, stringIsEmpty_rejected,
      statePending, stateResolved, stateBroken, labelInvalidArguments]

/-! ## Claim C9: staged evaluation and theorems -/

theorem c9StA_queue (id1 id2 : Nat) (v1 v2 : Value) :
    (c9StA id1 id2 v1 v2).queue = [.settleJob 0 stateResolved (.str "x")] := rfl

theorem c9StB_queue (id1 id2 : Nat) (u1 u2 : Value) :
    (c9StB id1 id2 u1 u2).queue =
      [.settleJob 1 stateResolved u1, .settleJob 2 stateResolved u2] := rfl

theorem c9StC_queue (id1 id2 : Nat) (u1 u2 : Value) :
    (c9StC id1 id2 u1 u2).queue = [.settleJob 2 stateResolved u2] := rfl

theorem c9StD_queue (id1 id2 : Nat) (u1 u2 : Value) :
    (c9StD id1 id2 u1 u2).queue = [] := rfl

theorem c9_setup (id1 id2 : Nat) (v1 v2 : Value) :
    c9St id1 id2 v1 v2 = c9StA id1 id2 v1 v2 := by
  simp [c9St, st1p, thenOp, vouch, methodResolve, getP, setP, mkPromise,
    c9StA, c9P0, pendingChildOf, stringIsEmpty_fulfilled,
    stringIsEmpty_rejected, statePending, stateResolved, stateBroken]

set_option maxHeartbeats 1000000 in
theorem c9_j1 (id1 id2 : Nat) (v1 v2 : Value)
    (p1 : isPromiseRef v1 = false) (p2 : isPromiseRef v2 = false) :
    settle 29 { c9StA id1 id2 v1 v2 with queue := [] } 0 stateResolved
        (.str "x") =
      (c9StB id1 id2 (if truthy v1 = true then v1 else .str "x")
        (if truthy v2 = true then v2 else .str "x"),
       .ok (.promiseRef 0)) := by
  by_cases e1 : isErr v1 = true <;> by_cases t1 : truthy v1 = true <;>
    by_cases e2 : isErr v2 = true <;> by_cases t2 : truthy v2 = true <;>
    simp [settle, drainLoop, runCont, refOf, finallyPart, runUser,
      methodResolve, methodReject, getP, setP, mkPromise, c9StA, c9StB,
      c9P0, pendingChildOf, settledP, isUndef, typeofObject,
      statePending, stateResolved, stateBroken, p1, p2, e1, t1, e2, t2]

theorem c9_j2 (id1 id2 : Nat) (u1 u2 : Value) :
    settle 28 { c9StB id1 id2 u1 u2 with
        queue := [.settleJob 2 stateResolved u2] } 1 stateResolved u1 =
      (c9StC id1 id2 u1 u2, .ok (.promiseRef 1)) := by
  simp [settle, drainLoop, runCont, refOf, finallyPart, runUser,
    methodResolve, methodReject, getP, setP, mkPromise, c9StB, c9StC,
    pendingChildOf, settledP, isUndef, typeofObject,
    statePending, stateResolved, stateBroken]

theorem c9_j3 (id1 id2 : Nat) (u1 u2 : Value) :
    settle 27 { c9StC id1 id2 u1 u2 with queue := [] } 2 stateResolved u2 =
      (c9StD id1 id2 u1 u2, .ok (.promiseRef 2)) := by
  simp [settle, drainLoop, runCont, refOf, finallyPart, runUser,
    methodResolve, methodReject, getP, setP, mkPromise, c9StC, c9StD,
    pendingChildOf, settledP, isUndef, typeofObject,
    statePending, stateResolved, stateBroken]

theorem c9_run (id1 id2 : Nat) (v1 v2 : Value)
    (p1 : isPromiseRef v1 = false) (p2 : isPromiseRef v2 = false) :
    runQueue 30 (c9St id1 id2 v1 v2) =
      (c9StD id1 id2 (if truthy v1 = true then v1 else .str "x")
        (if truthy v2 = true then v2 else .str "x"), []) := by
  rw [c9_setup]
  simp only [runQueue, runJob, c9StA_queue, c9StB_queue, c9StC_queue,
    c9StD_queue, c9_j1 id1 id2 v1 v2 p1 p2,
    c9_j2 id1 id2 (if truthy v1 = true then v1 else .str "x")
      (if truthy v2 = true then v2 else .str "x"),
    c9_j3 id1 id2 (if truthy v1 = true then v1 else .str "x")
      (if truthy v2 = true then v2 else .str "x"),
    List.append_nil, List.nil_append]

set_option maxHeartbeats 1000000 in
theorem c9cex_phase1 : (runQueue 30 c9CexSt).1 = c9CexStB := by
  simp [c9CexSt, st2p, c9CexStB, c9CexP1, c9CexQ, pendingChildOf, runQueue,
    runJob, settle, drainLoop, runCont, refOf, finallyPart, thenOp, vouch,
    runUser, methodResolve, methodReject, getP, setP, mkPromise,
    isPromiseRef, isErr, isUndef, typeofObject, truthy,
    stringIsEmpty_fulfilled, stringIsEmpty_rejected,
    statePending, stateResolved, stateBroken]

/-- Claim C9 counterexample: with two success continuations registered
via `then` on the same pending promise and the first returning a
Promise, resolving with `"x"` invokes only the first continuation — the
second (id 2) is never invoked (the adoption halt leaves it queued). -/
theorem claim_C9_counterexample :
    (runQueue 30 c9CexSt).1.log = [(1, .str "x")] ∧
    (∀ v : Value, ((2, v) : Nat × Value) ∉
      ([(1, Value.str "x")] : List (Nat × Value))) := by
  rw [c9cex_phase1]
  exact ⟨rfl, by intro v h; simp at h⟩

/-- Claim C9 as amended: registering two success continuations on the
same pending promise via `then` and resolving it with `"x"` invokes each
continuation exactly once, in registration order, both receiving `"x"`,
and the deferred run raises nothing — provided neither continuation
returns a Promise (adoption would halt the drain and leave later
continuations queued). -/
theorem claim_C9 (id1 id2 : Nat) (v1 v2 : Value)
    (p1 : isPromiseRef v1 = false) (p2 : isPromiseRef v2 = false) :
    (runQueue 30 (c9St id1 id2 v1 v2)).1.log =
      [(id1, .str "x"), (id2, .str "x")] ∧
    (runQueue 30 (c9St id1 id2 v1 v2)).2 = [] := by
  rw [c9_run id1 id2 v1 v2 p1 p2]
  exact ⟨rfl, rfl⟩

theorem claim_C9_witness :
    (runQueue 30 (c9St 1 2 (.num 4) (.num 5))).1.log =
      [(1, .str "x"), (2, .str "x")] ∧
    (runQueue 30 (c9St 1 2 (.num 4) (.num 5))).2 = [] :=
  claim_C9 1 2 (.num 4) (.num 5) (by decide) (by decide)

/-! ## Claim C10: the pending-null frame property and theorems -/

theorem pendNull_setP_other (d r : Nat) (st : St) (p : PObj) (hrd : r ≠ d)
    (h : pendNull d st) : pendNull d (setP st r p) := by
  unfold pendNull
  rw [getP_setP_ne st r d p hrd]
  exact h

theorem pendNull_setP_pending (d r : Nat) (st : St) (p : PObj)
    (hs : p.state = statePending) (ho : p.outcome = .null)
    (h : pendNull d st) : pendNull d (setP st r p) := by
  by_cases hrd : r = d
  · subst hrd
    unfold pendNull
    rw [getP_setP_self]
    split
    · exact ⟨hs, ho⟩
    · exact h
  · exact pendNull_setP_other d r st p hrd h

theorem pendNull_setP_keep (d r : Nat) (st : St) (p : PObj)
    (hs : p.state = (getP st r).state) (ho : p.outcome = (getP st r).outcome)
    (h : pendNull d st) : pendNull d (setP st r p) := by
  by_cases hrd : r = d
  · subst hrd
    unfold pendNull
    rw [getP_setP_self]
    split
    · exact ⟨hs.trans h.1, ho.trans h.2⟩
    · exact h
  · exact pendNull_setP_other d r st p hrd h

theorem pendNull_append (d : Nat) (st : St) (o : PObj)
    (hs : o.state = statePending) (ho : o.outcome = .null)
    (h : pendNull d st) : pendNull d { st with heap := st.heap ++ [o] } := by
  unfold pendNull at h ⊢
  simp only [getP, List.getD_eq_getElem?_getD, List.getElem?_append] at h ⊢
  by_cases hd : d < st.heap.length
  · simpa [hd] using h
  · simp only [hd, if_false]
    by_cases h0 : d - st.heap.length = 0
    · rw [h0]
      simp [hs, ho]
    · rw [List.getElem?_eq_none (by simp; omega)]
      simp [mkPromise]

theorem pendNull_runUser (d : Nat) (st : St) (fn : UserFn) (arg : Value)
    (h : pendNull d st) : pendNull d (runUser st fn arg).1 := by
  cases fn <;> exact h

theorem pendNull_adoptionState (d : Nat) (st : St) (sR qr : Nat)
    (h : pendNull d st) :
    pendNull d (setP (setP st sR { getP st sR with state := statePending, outcome := .null }) qr { getP (setP st sR { getP st sR with state := statePending, outcome := .null }) qr with parentNode := some sR }) :=
  pendNull_setP_keep _ _ _ _ rfl rfl (pendNull_setP_pending _ _ _ _ rfl rfl h)

theorem pendNull_cycle (fuel : Nat) :
    (∀ st selfRef conts val eF rs res pu d, pendNull d st →
      pendNull d (drainLoop fuel st selfRef conts val eF rs res pu).1) ∧
    (∀ st c arg d, pendNull d st →
      pendNull d (runCont fuel st c arg).1) ∧
    (∀ st sR dR e r d, pendNull d st →
      pendNull d (finallyPart fuel st sR dR e r).1) ∧
    (∀ st sR su fa d, pendNull d st →
      pendNull d (thenOp fuel st sR su fa).1) ∧
    (∀ st sR sA c d, pendNull d st →
      pendNull d (vouch fuel st sR sA c).1) := by
  induction fuel with
  | zero =>
    refine ⟨?_, ?_, ?_, ?_, ?_⟩
    · intro st selfRef conts val eF rs res pu d h
      simpa [drainLoop] using h
    · intro st c arg d h
      simpa [runCont] using h
    · intro st sR dR e r d h
      simpa [finallyPart] using h
    · intro st sR su fa d h
      simpa [thenOp] using h
    · intro st sR sA c d h
      simpa [vouch] using h
  | succ f ih =>
    obtain ⟨ihD, ihC, ihF, ihT, ihV⟩ := ih
    refine ⟨?_, ?_, ?_, ?_, ?_⟩
    · intro st selfRef conts val eF rs res pu d h
      cases conts with
      | nil => simpa [drainLoop] using h
      | cons c rest =>
        rw [drainLoop]
        rcases hrc : runCont f st c val with ⟨st1, r1⟩
        have h1 : pendNull d st1 := by
          have := ihC st c val d h
          rwa [hrc] at this
        rcases r1 with e | v
        · exact h1
        · dsimp only
          split
          · exact pendNull_setP_pending _ _ _ _ rfl rfl h1
          · split
            · exact ihD _ _ _ _ _ _ _ _ _ h1
            · exact ihD _ _ _ _ _ _ _ _ _ h1
    · intro st c arg d h
      cases c with
      | userCont fn => simpa [runCont] using pendNull_runUser d st fn arg h
      | thenWrap sR dR yay handler =>
        rw [runCont]
        rcases hru : runUser st handler (getP st sR).outcome with ⟨st1, r1⟩
        have h1 : pendNull d st1 := by
          have := pendNull_runUser d st handler (getP st sR).outcome h
          rwa [hru] at this
        rcases r1 with e | v <;> simp only [hru] <;>
          exact ihF _ _ _ _ _ _ h1
    · intro st sR dR e r d h
      rw [finallyPart]
      split
      · dsimp only
        split
        · next st3 e3 heq =>
            have h3 := ihT _ (refOf r) (some (.forwardResolve sR))
              (some (.forwardReject sR)) d
              (pendNull_adoptionState d st sR (refOf r) h)
            rw [heq] at h3
            exact h3
        · next st3 v3 heq =>
            have h3 := ihT _ (refOf r) (some (.forwardResolve sR))
              (some (.forwardReject sR)) d
              (pendNull_adoptionState d st sR (refOf r) h)
            rw [heq] at h3
            exact h3
      · split
        · exact h
        · dsimp only
          repeat' split
          all_goals exact h
    · intro st sR su fa d h
      have h1 : pendNull d { st with heap := st.heap ++ [mkPromise] } :=
        pendNull_append _ _ _ rfl rfl h
      rcases su with _ | sf <;> rcases fa with _ | ff <;> rw [thenOp] <;>
        dsimp only
      · exact pendNull_setP_keep _ _ _ _ rfl rfl h1
      · split
        · next st2 e2 heq =>
            have h2 := ihV _ sR stateBroken
              (.thenWrap sR st.heap.length false ff) d h1
            rw [heq] at h2
            exact h2
        · next st2 v2 heq =>
            have h2 := ihV _ sR stateBroken
              (.thenWrap sR st.heap.length false ff) d h1
            rw [heq] at h2
            exact pendNull_setP_keep _ _ _ _ rfl rfl h2
      · split
        · next st2 e2 heq =>
            have h2 := ihV _ sR stateResolved
              (.thenWrap sR st.heap.length true sf) d h1
            rw [heq] at h2
            exact h2
        · next st2 v2 heq =>
            have h2 := ihV _ sR stateResolved
              (.thenWrap sR st.heap.length true sf) d h1
            rw [heq] at h2
            exact pendNull_setP_keep _ _ _ _ rfl rfl h2
      · split
        · next st2 e2 heq =>
            have h2 := ihV _ sR stateResolved
              (.thenWrap sR st.heap.length true sf) d h1
            rw [heq] at h2
            exact h2
        · next st2 v2 heq =>
            have h2 := ihV _ sR stateResolved
              (.thenWrap sR st.heap.length true sf) d h1
            rw [heq] at h2
            split
            · next st3 e3 heq3 =>
                have h3 := ihV _ sR stateBroken
                  (.thenWrap sR st.heap.length false ff) d h2
                rw [heq3] at h3
                exact h3
            · next st3 v3 heq3 =>
                have h3 := ihV _ sR stateBroken
                  (.thenWrap sR st.heap.length false ff) d h2
                rw [heq3] at h3
                exact pendNull_setP_keep _ _ _ _ rfl rfl h3
    · intro st sR sA c d h
      rw [vouch]
      by_cases hse : stringIsEmpty sA = true
      · rw [if_pos hse]
        exact h
      · rw [if_neg hse]
        by_cases hp : (getP st sR).state = statePending
        · rw [if_pos hp]
          dsimp only
          split
          · exact pendNull_setP_keep _ _ _ _ rfl rfl h
          · exact pendNull_setP_keep _ _ _ _ rfl rfl h
        · rw [if_neg hp]
          by_cases hq : (getP st sR).state = sA
          · rw [if_pos hq]
            rcases hrc : runCont f st c (getP st sR).outcome with ⟨st1, r1⟩
            have h1 : pendNull d st1 := by
              have := ihC st c (getP st sR).outcome d h
              rwa [hrc] at this
            rcases r1 with e1 | v1 <;> simp only [hrc] <;> exact h1
          · rw [if_neg hq]
            exact h

theorem pendNull_settle (fuel : Nat) (st : St) (selfRef : Nat) (s : String)
    (v : Value) (d : Nat) (hne : selfRef ≠ d) (h : pendNull d st) :
    pendNull d (settle fuel st selfRef s v).1 := by
  cases fuel with
  | zero => simpa [settle] using h
  | succ f =>
    rw [settle]
    dsimp only
    by_cases hp : (getP st selfRef).state = statePending
    · rw [if_pos hp]
      have h1 : pendNull d (setP st selfRef { error := (getP st selfRef).error, fulfill := (getP st selfRef).fulfill, parentNode := (getP st selfRef).parentNode, outcome := v, state := s, frozen := (getP st selfRef).frozen }) :=
        pendNull_setP_other d selfRef st _ hne h
      rcases hdr : drainLoop f (setP st selfRef { error := (getP st selfRef).error, fulfill := (getP st selfRef).fulfill, parentNode := (getP st selfRef).parentNode, outcome := v, state := s, frozen := (getP st selfRef).frozen }) selfRef (if s = stateBroken then (getP (setP st selfRef { error := (getP st selfRef).error, fulfill := (getP st selfRef).fulfill, parentNode := (getP st selfRef).parentNode, outcome := v, state := s, frozen := (getP st selfRef).frozen }) selfRef).error else (getP (setP st selfRef { error := (getP st selfRef).error, fulfill := (getP st selfRef).fulfill, parentNode := (getP st selfRef).parentNode, outcome := v, state := s, frozen := (getP st selfRef).frozen }) selfRef).fulfill) v false .undef .undef 0 with ⟨st2, r2⟩
      have h2 : pendNull d st2 := by
        have := (pendNull_cycle f).1 (setP st selfRef { error := (getP st selfRef).error, fulfill := (getP st selfRef).fulfill, parentNode := (getP st selfRef).parentNode, outcome := v, state := s, frozen := (getP st selfRef).frozen }) selfRef (if s = stateBroken then (getP (setP st selfRef { error := (getP st selfRef).error, fulfill := (getP st selfRef).fulfill, parentNode := (getP st selfRef).parentNode, outcome := v, state := s, frozen := (getP st selfRef).frozen }) selfRef).error else (getP (setP st selfRef { error := (getP st selfRef).error, fulfill := (getP st selfRef).fulfill, parentNode := (getP st selfRef).parentNode, outcome := v, state := s, frozen := (getP st selfRef).frozen }) selfRef).fulfill) v false .undef .undef 0 d h1
        rwa [hdr] at this
      rcases r2 with e2 | d2
      · dsimp only
        exact h2
      · dsimp only
        repeat' split
        all_goals
          first
            | exact pendNull_setP_keep _ _ _ _ rfl rfl h2
            | exact pendNull_setP_keep _ _ _ _ rfl rfl
                (pendNull_setP_keep _ _ _ _ rfl rfl h2)
    · rw [if_neg hp]
      exact h

theorem set_append_length {α : Type} (l : List α) (a b : α) :
    (l ++ [a]).set l.length b = l ++ [b] := by
  induction l with
  | nil => rfl
  | cons x xs ihx => simp [List.set, ihx]

theorem thenOp_nofns (st : St) (P : Nat) (f : Nat) :
    thenOp (f + 1) st P none none =
      ({ st with heap := st.heap ++ [{ mkPromise with parentNode := some P }] },
       .ok (.promiseRef st.heap.length)) := by
  rw [thenOp]
  dsimp only
  simp [setP, getP, List.getD_eq_getElem?_getD, List.getElem?_append_right,
    mkPromise, set_append_length]

/-- Claim C10: `then` with two non-function arguments registers no
continuation on either of `P`'s sequences — the machine changes only by
the allocation of the fresh derived promise, whose `parentNode` is `P` —
and returns that new pending derived promise; when `P` is subsequently
settled (any state label, any value, any registered continuations, any
outcome of the settlement), the derived promise's state and outcome are
left unchanged: still pending with a `null` outcome. -/
theorem claim_C10 (st : St) (P : Nat) (s : String) (v : Value) (f g : Nat)
    (hP : P < st.heap.length) :
    thenOp (f + 1) st P none none =
      ({ st with heap := st.heap ++ [{ mkPromise with parentNode := some P }] },
       .ok (.promiseRef st.heap.length)) ∧
    (getP (settle g (thenOp (f + 1) st P none none).1 P s v).1
        st.heap.length).state = statePending ∧
    (getP (settle g (thenOp (f + 1) st P none none).1 P s v).1
        st.heap.length).outcome = .null := by
  have h1 := thenOp_nofns st P f
  refine ⟨h1, ?_⟩
  rw [h1]
  have hpn : pendNull st.heap.length
      { st with heap := st.heap ++ [{ mkPromise with parentNode := some P }] } := by
    constructor <;>
      simp [pendNull, getP, List.getD_eq_getElem?_getD,
        List.getElem?_append_right, mkPromise]
  exact pendNull_settle g _ P s v st.heap.length (Nat.ne_of_lt hP) hpn

theorem claim_C10_witness :
    thenOp 10 st1p 0 none none =
      ({ st1p with heap := st1p.heap ++ [{ mkPromise with parentNode := some 0 }] },
       .ok (.promiseRef st1p.heap.length)) ∧
    (getP (settle 20 (thenOp 10 st1p 0 none none).1 0 stateResolved
        (.num 3)).1 st1p.heap.length).state = statePending ∧
    (getP (settle 20 (thenOp 10 st1p 0 none none).1 0 stateResolved
        (.num 3)).1 st1p.heap.length).outcome = .null :=
  claim_C10 st1p 0 stateResolved (.num 3) 9 20 (by decide)

end AbaasoPromise
